import Mathlib

/-!
Verification of the core logic of the YAML Config Comparator
(src/main.py): the flatteners yaml_keys_from_text / yaml_items_from_text,
the three-way set differ and value classification in
ConfigComparator.compare, and the fmt_value formatter.

Parsed YAML documents are embedded as the inductive type Yaml below.
Mapping keys are carried as strings (the code only ever uses str(k) of a
key); floating point scalars are carried as rationals, representing the
numeric value the parser produced.  The external YAML parser
(yaml.safe_load) is not repository code: functions that depend on it take
the parser as an explicit argument of type String → Except String Yaml,
an abstraction of a call that either fails with a message or yields a
parsed document.
-/

set_option autoImplicit false

namespace ConfigComparator

/-!  A parsed YAML value: null, bool, int, float, string, sequence or
mapping, mirroring what yaml.safe_load returns for the comparator. -/
mutual
inductive Yaml where
  | null : Yaml
  | bool : Bool → Yaml
  | int : Int → Yaml
  | float : ℚ → Yaml
  | str : String → Yaml
  | seq : YamlSeq → Yaml
  | map : YamlMap → Yaml

inductive YamlSeq where
  | nil : YamlSeq
  | cons : Yaml → YamlSeq → YamlSeq

inductive YamlMap where
  | nil : YamlMap
  | cons : String → Yaml → YamlMap → YamlMap
end

deriving instance DecidableEq for Yaml

/-- Source is_scalar (main.py line 104): str, int, float, bool or None. -/
def is_scalar : Yaml → Bool
  | .null => true
  | .bool _ => true
  | .int _ => true
  | .float _ => true
  | .str _ => true
  | .seq _ => false
  | .map _ => false

/-- Source is_container (main.py line 108): dict or list. -/
def is_container : Yaml → Bool
  | .map _ => true
  | .seq _ => true
  | _ => false

/-!  The walk of yaml_keys_from_text (main.py lines 52-64).  The Python
code accumulates into a set; we return the list of keys.add calls in
order, and take its Finset afterwards.  The child path of a mapping entry
is the key when the running path is empty, else path ++ "." ++ key; the
child path of a sequence element i is "[i]" appended (the two Python
branches coincide when the running path is empty). -/
mutual
def walkKeys : Yaml → String → List String
  | .map kvs, pre => walkKeysMap kvs pre
  | .seq xs, pre => walkKeysSeq xs pre 0
  | _, _ => []

def walkKeysMap : YamlMap → String → List String
  | .nil, _ => []
  | .cons k v tl, pre =>
      let keyPath := if pre = "" then k else pre ++ "." ++ k
      (keyPath :: walkKeys v keyPath) ++ walkKeysMap tl pre

def walkKeysSeq : YamlSeq → String → Nat → List String
  | .nil, _, _ => []
  | .cons x tl, pre, i =>
      let keyPath := if pre = "" then "[" ++ toString i ++ "]"
                     else pre ++ "[" ++ toString i ++ "]"
      (keyPath :: walkKeys x keyPath) ++ walkKeysSeq tl pre (i + 1)
end

/-- The key set produced by yaml_keys_from_text after a successful parse
(main.py lines 50-67): the set of paths recorded by the walk from the
root with empty running path. -/
def yaml_keys (d : Yaml) : Finset String := (walkKeys d "").toFinset

/-!  The walk of yaml_items_from_text (main.py lines 82-94): at every
call with a non-empty running path the current node is stored under that
path, then the walk descends with the same child paths as the key walk.
We return the list of dict writes in order; the Python dict is recovered
by letting the last write to a path win. -/
mutual
def walkItems : Yaml → String → List (String × Yaml)
  | node, pre =>
      (if pre = "" then [] else [(pre, node)]) ++
      match node with
      | .map kvs => walkItemsMap kvs pre
      | .seq xs => walkItemsSeq xs pre 0
      | _ => []

def walkItemsMap : YamlMap → String → List (String × Yaml)
  | .nil, _ => []
  | .cons k v tl, pre =>
      let keyPath := if pre = "" then k else pre ++ "." ++ k
      walkItems v keyPath ++ walkItemsMap tl pre

def walkItemsSeq : YamlSeq → String → Nat → List (String × Yaml)
  | .nil, _, _ => []
  | .cons x tl, pre, i =>
      let keyPath := if pre = "" then "[" ++ toString i ++ "]"
                     else pre ++ "[" ++ toString i ++ "]"
      walkItems x keyPath ++ walkItemsSeq tl pre (i + 1)
end

/-- The path → value writes performed by yaml_items_from_text after a
successful parse (main.py lines 80-101): a non-container root yields the
single sentinel entry, a container root is walked with empty running
path. -/
def yaml_items (d : Yaml) : List (String × Yaml) :=
  if is_container d then walkItems d "" else [("<root>", d)]

/-- Lookup in the dict built by the writes of yaml_items: the last write
to a path wins, as for a Python dict assignment. -/
def lookupLast (l : List (String × Yaml)) (q : String) : Option Yaml :=
  match l with
  | [] => none
  | (k, v) :: tl =>
      match lookupLast tl q with
      | some w => some w
      | none => if k = q then some v else none

/-!  The number of mapping-key and sequence-index edges of a document's
tree, at every depth. -/
mutual
def countEdges : Yaml → Nat
  | .map kvs => countEdgesMap kvs
  | .seq xs => countEdgesSeq xs
  | _ => 0

def countEdgesMap : YamlMap → Nat
  | .nil => 0
  | .cons _ v tl => 1 + countEdges v + countEdgesMap tl

def countEdgesSeq : YamlSeq → Nat
  | .nil => 0
  | .cons x tl => 1 + countEdges x + countEdgesSeq tl
end

/-- First-match lookup of a key in a mapping, as Python's dict indexing
on the unique-keyed dicts the YAML parser produces. -/
def mapLookup : YamlMap → String → Option Yaml
  | .nil, _ => none
  | .cons k v tl, q => if k = q then some v else mapLookup tl q

/-- Number of entries of a mapping. -/
def mapLen : YamlMap → Nat
  | .nil => 0
  | .cons _ _ tl => mapLen tl + 1

theorem sizeOf_lt_of_mapLookup : ∀ {m : YamlMap} {q : String} {w : Yaml},
    mapLookup m q = some w → sizeOf w < sizeOf m
  | .cons k v tl, q, w, h => by
    simp only [mapLookup] at h
    split at h
    · cases h; simp; omega
    · have := sizeOf_lt_of_mapLookup h
      simp
      omega

/-- The numeric value of a Python number (bool, int or float): Python
compares bool, int and float across types by exact numeric value. -/
def numVal : Yaml → Option ℚ
  | .bool b => some (if b then 1 else 0)
  | .int n => some (n : ℚ)
  | .float x => some x
  | _ => none

/-!  Python equality (the == of main.py line 286) on parsed YAML values:
None equals only None; strings compare as strings; numbers (bool, int,
float) compare by exact numeric value across types; lists compare
elementwise; dicts compare by equal size and equal value at every key;
values of unrelated kinds are unequal. -/
mutual
def pyEq : Yaml → Yaml → Bool
  | .null, .null => true
  | .str a, .str b => a == b
  | .seq a, .seq b => pyEqSeq a b
  | .map a, .map b => mapLen a == mapLen b && pyEqMapSub a b
  | a, b =>
      match numVal a, numVal b with
      | some x, some y => decide (x = y)
      | _, _ => false
termination_by a b => sizeOf a + sizeOf b

def pyEqSeq : YamlSeq → YamlSeq → Bool
  | .nil, .nil => true
  | .cons x xs, .cons y ys => pyEq x y && pyEqSeq xs ys
  | _, _ => false
termination_by a b => sizeOf a + sizeOf b

def pyEqMapSub : YamlMap → YamlMap → Bool
  | .nil, _ => true
  | .cons k v tl, b =>
      (match h : mapLookup b k with
       | some w => pyEq v w
       | none => false) && pyEqMapSub tl b
termination_by a b => sizeOf a + sizeOf b
decreasing_by
  all_goals simp_wf
  all_goals have := sizeOf_lt_of_mapLookup h
  all_goals omega
end

/-- The guard "not text.strip()" (main.py lines 43 and 73): Python's
strip() leaves the empty string exactly when every character of the text
is whitespace. -/
def strippedEmpty (s : String) : Bool :=
  s.data.all Char.isWhitespace

/-- yaml_keys_from_text (main.py lines 41-67) with the external parser
abstracted: empty or whitespace-only text is rejected before the parser
runs, a parser failure is re-signalled with the message prefixed by
"Invalid YAML: ", and otherwise the walk's key set is returned. -/
def yaml_keys_from_text (parse : String → Except String Yaml) (text : String) :
    Except String (Finset String) :=
  if strippedEmpty text then .error "Empty YAML content."
  else
    match parse text with
    | .error e => .error ("Invalid YAML: " ++ e)
    | .ok d => .ok (yaml_keys d)

/-- yaml_items_from_text (main.py lines 70-101) with the external parser
abstracted, analogously to yaml_keys_from_text. -/
def yaml_items_from_text (parse : String → Except String Yaml) (text : String) :
    Except String (List (String × Yaml)) :=
  if strippedEmpty text then .error "Empty YAML content."
  else
    match parse text with
    | .error e => .error ("Invalid YAML: " ++ e)
    | .ok d => .ok (yaml_items d)

/-- Python's s.split() with no separator: the maximal whitespace-free
runs of the string, dropping empty pieces.  The accumulator carries the
current run reversed. -/
def pyWords (cs : List Char) (acc : List Char) : List String :=
  match cs with
  | [] => if acc = [] then [] else [⟨acc.reverse⟩]
  | c :: rest =>
      if c.isWhitespace then
        (if acc = [] then [] else [⟨acc.reverse⟩]) ++ pyWords rest []
      else pyWords rest (c :: acc)

/-- The _one_line helper (main.py line 112): split on whitespace runs
and re-join the non-empty pieces with single spaces, as Python's
" ".join(s.split()). -/
def one_line (s : String) : String :=
  String.intercalate " " (pyWords s.data [])

/-- Python's s[:i] for an arbitrary integer bound: a non-negative bound
takes that many leading characters (clamped to the length), a negative
bound counts from the end (clamped to zero). -/
def pyTakeTo (s : String) (i : Int) : String :=
  if 0 ≤ i then ⟨s.data.take i.toNat⟩
  else ⟨s.data.take ((s.data.length : Int) + i).toNat⟩

/-- Python repr of a scalar as used by fmt_value (main.py line 119):
None, True and False render as their tokens and ints in decimal; the
repr of a string is modelled for strings without quotes or escape
characters (wrapped in single quotes), and the repr of a float is
abstracted as the decimal rendering of the rational value.  Containers
never reach this function (fmt_value guards with is_scalar). -/
def reprScalar : Yaml → String
  | .null => "None"
  | .bool true => "True"
  | .bool false => "False"
  | .int n => toString n
  | .float x => toString x
  | .str s => "\x27" ++ s ++ "\x27"
  | _ => ""

/-!  Modelled from the spec: the container branch of fmt_value calls the
external yaml.safe_dump (main.py line 122), which is not repository
code; per the spec it is a canonical serialization back into YAML-like
text.  We render containers in a single-line flow style.  The spec's
sorted key ordering is not reproduced (mappings are rendered in entry
order); every property proved about fmt_value below is independent of
the rendered text of a container. -/
mutual
def dumpYaml : Yaml → String
  | .null => "null"
  | .bool true => "true"
  | .bool false => "false"
  | .int n => toString n
  | .float x => toString x
  | .str s => s
  | .seq xs => "[" ++ dumpYamlSeq xs ++ "]"
  | .map kvs => "\x7b" ++ dumpYamlMap kvs ++ "\x7d"

def dumpYamlSeq : YamlSeq → String
  | .nil => ""
  | .cons x tl => dumpYaml x ++ ", " ++ dumpYamlSeq tl

def dumpYamlMap : YamlMap → String
  | .nil => ""
  | .cons k v tl => k ++ ": " ++ dumpYaml v ++ ", " ++ dumpYamlMap tl
end

/-- The untruncated rendering computed by fmt_value before its length
check (main.py lines 118-125): repr for a scalar, serialization for a
container, collapsed to one line. -/
def fmt_raw (v : Yaml) : String :=
  one_line (if is_scalar v then reprScalar v else dumpYaml v)

/-- fmt_value (main.py lines 116-128): render the value, collapse to one
line, and when the result exceeds max_len characters keep the first
max_len - 1 characters (Python's s[: max_len - 1], with the
negative-bound semantics of Python slicing when max_len is 0) followed
by an ellipsis character. -/
def fmt_value (v : Yaml) (max_len : Nat) : String :=
  let s := fmt_raw v
  if max_len < s.length then (pyTakeTo s ((max_len : Int) - 1)).push '…' else s

/-- The three colours a rendered row can take (main.py lines 31-33). -/
inductive RowColor where
  | green
  | red
  | orange
  deriving DecidableEq

/-- The classification of a common path's two values in value mode
(main.py lines 281-294): green when both values are containers, green
when the values compare equal under Python equality, orange otherwise. -/
def valueColor (a b : Yaml) : RowColor :=
  if is_container a && is_container b then .green
  else if pyEq a b then .green
  else .orange

/-- The Python dict built by yaml_items_from_text, as a lookup function:
the value stored at a path is the last write to it. -/
def itemsDict (d : Yaml) (q : String) : Option Yaml :=
  lookupLast (yaml_items d) q

/-- Python's sorted() on a set of path strings: ascending lexicographic
order by code point. -/
def sortedKeys (s : Finset String) : List String :=
  s.sort (fun a b => a ≤ b)

/-- One row of a results list: the path it was generated from, the
displayed text, and its colour. -/
structure RenderedRow where
  path : String
  text : String
  color : RowColor

/-- The row a common path contributes to the left list in value mode
(main.py lines 277-294): green text is the bare path, orange text
carries both formatted values. -/
def commonRowLeft (dL dR : Yaml) (k : String) : RenderedRow :=
  match valueColor ((itemsDict dL k).getD (.str "<missing>"))
      ((itemsDict dR k).getD (.str "<missing>")) with
  | .orange =>
      ⟨k, k ++ "  (A=" ++ fmt_value ((itemsDict dL k).getD (.str "<missing>")) 180 ++
        ", B=" ++ fmt_value ((itemsDict dR k).getD (.str "<missing>")) 180 ++ ")",
        .orange⟩
  | _ => ⟨k, k, .green⟩

/-- The row a common path contributes to the right list in value mode
(main.py lines 277-294), with the two values displayed in the B, A
order. -/
def commonRowRight (dL dR : Yaml) (k : String) : RenderedRow :=
  match valueColor ((itemsDict dL k).getD (.str "<missing>"))
      ((itemsDict dR k).getD (.str "<missing>")) with
  | .orange =>
      ⟨k, k ++ "  (B=" ++ fmt_value ((itemsDict dR k).getD (.str "<missing>")) 180 ++
        ", A=" ++ fmt_value ((itemsDict dL k).getD (.str "<missing>")) 180 ++ ")",
        .orange⟩
  | _ => ⟨k, k, .green⟩

/-- The left results list built by ConfigComparator.compare (main.py
lines 266-303) after both sides parse: the common paths in sorted order
(classified by value when value mode is on, all green otherwise), then
the left-only paths in sorted order marked missing in B. -/
def leftRows (dL dR : Yaml) (compare_values : Bool) : List RenderedRow :=
  (if compare_values then
      (sortedKeys (yaml_keys dL ∩ yaml_keys dR)).map (commonRowLeft dL dR)
    else
      (sortedKeys (yaml_keys dL ∩ yaml_keys dR)).map (fun k => ⟨k, k, .green⟩)) ++
    (sortedKeys (yaml_keys dL \ yaml_keys dR)).map
      (fun k => ⟨k, k ++ "  (missing in B)", .red⟩)

/-- The right results list built by ConfigComparator.compare, mirroring
leftRows: common paths first, then right-only paths marked missing
in A. -/
def rightRows (dL dR : Yaml) (compare_values : Bool) : List RenderedRow :=
  (if compare_values then
      (sortedKeys (yaml_keys dL ∩ yaml_keys dR)).map (commonRowRight dL dR)
    else
      (sortedKeys (yaml_keys dL ∩ yaml_keys dR)).map (fun k => ⟨k, k, .green⟩)) ++
    (sortedKeys (yaml_keys dR \ yaml_keys dL)).map
      (fun k => ⟨k, k ++ "  (missing in A)", .red⟩)

/-- The three-way partition computed by compare (main.py lines 262-264):
common paths, left-only paths and right-only paths. -/
def diffPaths (l r : Finset String) :
    Finset String × Finset String × Finset String :=
  (l ∩ r, l \ r, r \ l)

/-!  ## Theorems -/

/-- C2: the three partitions computed by compare satisfy
common ∪ onlyLeft = leftPaths and common ∪ onlyRight = rightPaths, are
pairwise disjoint, and diffing a path set against itself yields the
whole set as common with both only-sets empty. -/
theorem diffPaths_partition (l r : Finset String) :
    (diffPaths l r).1 ∪ (diffPaths l r).2.1 = l ∧
    (diffPaths l r).1 ∪ (diffPaths l r).2.2 = r ∧
    Disjoint (diffPaths l r).1 (diffPaths l r).2.1 ∧
    Disjoint (diffPaths l r).1 (diffPaths l r).2.2 ∧
    Disjoint (diffPaths l r).2.1 (diffPaths l r).2.2 ∧
    diffPaths l l = (l, ∅, ∅) := by
  refine ⟨?_, ?_, ?_, ?_, ?_, ?_⟩
  · ext x; simp [diffPaths]; tauto
  · ext x; simp [diffPaths]; tauto
  · rw [Finset.disjoint_left]; intro x hx hy; simp [diffPaths] at hx hy; tauto
  · rw [Finset.disjoint_left]; intro x hx hy; simp [diffPaths] at hx hy; tauto
  · rw [Finset.disjoint_left]; intro x hx hy; simp [diffPaths] at hx hy; tauto
  · simp [diffPaths]

/-- C3: in value mode, a common path whose left and right values are
both containers is classified green (equal), never orange (differing),
whatever the containers hold. -/
theorem container_pair_green (a b : Yaml)
    (ha : is_container a = true) (hb : is_container b = true) :
    valueColor a b = RowColor.green := by
  simp [valueColor, ha, hb]

theorem container_pair_green_witness :
    is_container (Yaml.map (.cons "x" (.int 1) .nil)) = true ∧
    is_container (Yaml.seq (.cons (.int 2) .nil)) = true ∧
    valueColor (Yaml.map (.cons "x" (.int 1) .nil))
      (Yaml.seq (.cons (.int 2) .nil)) = RowColor.green :=
  ⟨by decide, by decide,
   container_pair_green _ _ (by decide) (by decide)⟩

/-- C5: a document whose root is a scalar flattens to the empty key set,
while its value-mode flattening is the single sentinel entry at path
"<root>" holding the scalar. -/
theorem root_scalar_flatten (v : Yaml) (h : is_scalar v = true) :
    yaml_keys v = ∅ ∧ yaml_items v = [("<root>", v)] := by
  cases v <;> simp_all [yaml_keys, yaml_items, walkKeys, is_scalar, is_container]

theorem root_scalar_flatten_witness :
    is_scalar (Yaml.int 7) = true ∧
    yaml_keys (Yaml.int 7) = ∅ ∧
    yaml_items (Yaml.int 7) = [("<root>", Yaml.int 7)] :=
  ⟨by decide, (root_scalar_flatten (Yaml.int 7) (by decide)).1,
   (root_scalar_flatten (Yaml.int 7) (by decide)).2⟩

/-- C6: when not both values at a common path are containers they are
compared by Python scalar equality, which separates an integer from any
string (in particular its decimal representation), compares floats by
exact numeric value, and equates null with null and nothing else. -/
theorem scalar_equality_rules :
    (∀ a b : Yaml, ¬(is_container a = true ∧ is_container b = true) →
        valueColor a b = if pyEq a b then RowColor.green else RowColor.orange) ∧
    (∀ (n : Int) (s : String), pyEq (Yaml.int n) (Yaml.str s) = false) ∧
    (∀ x y : ℚ, pyEq (Yaml.float x) (Yaml.float y) = true ↔ x = y) ∧
    (∀ v : Yaml, (pyEq Yaml.null v = true ↔ v = Yaml.null) ∧
        (pyEq v Yaml.null = true ↔ v = Yaml.null)) := by
  refine ⟨?_, ?_, ?_, ?_⟩
  · intro a b h
    have hc : (is_container a && is_container b) = false := by
      cases ha : is_container a <;> cases hb : is_container b <;> simp_all
    simp [valueColor, hc]
  · intro n s
    simp [pyEq, numVal]
  · intro x y
    simp [pyEq, numVal]
  · intro v
    cases v <;> simp [pyEq, numVal]

theorem scalar_equality_rules_witness :
    ¬(is_container (Yaml.int 3) = true ∧ is_container (Yaml.str "3") = true) ∧
    valueColor (Yaml.int 3) (Yaml.str "3") =
      (if pyEq (Yaml.int 3) (Yaml.str "3") then RowColor.green else RowColor.orange) ∧
    pyEq (Yaml.int 3) (Yaml.str "3") = false ∧
    (pyEq (Yaml.float (1 / 2)) (Yaml.float (2 / 4)) = true ↔ (1 / 2 : ℚ) = 2 / 4) ∧
    (pyEq Yaml.null (Yaml.bool false) = true ↔ Yaml.bool false = Yaml.null) :=
  ⟨by decide,
   scalar_equality_rules.1 (Yaml.int 3) (Yaml.str "3") (by decide),
   scalar_equality_rules.2.1 3 "3",
   scalar_equality_rules.2.2.1 (1 / 2) (2 / 4),
   (scalar_equality_rules.2.2.2 (Yaml.bool false)).1⟩

/-- The parse-failure message can never coincide with the empty-input
message: the two error kinds stay distinguishable. -/
theorem invalid_ne_empty_msg (e : String) :
    "Invalid YAML: " ++ e ≠ "Empty YAML content." := by
  intro h
  have h2 : "Invalid YAML: ".data ++ e.data = "Empty YAML content.".data :=
    congrArg String.data h
  have h3 : ("Invalid YAML: ".data ++ e.data).head? = some 'E' := by rw [h2]; rfl
  have h4 : ("Invalid YAML: ".data ++ e.data).head? = some 'I' := rfl
  rw [h4] at h3
  exact absurd h3 (by decide)

/-- C4: whitespace-only input yields the empty-input error with no
parser involvement (the result is the same whatever the parser would
say); a parser rejection yields the parse error carrying the parser's
message, which is never the empty-input error; and on non-empty input
the parser accepts, no error is raised.  Both text-level flatteners
behave alike. -/
theorem text_error_handling (parse parse2 : String → Except String Yaml)
    (text : String) :
    (strippedEmpty text = true →
        yaml_keys_from_text parse text = .error "Empty YAML content." ∧
        yaml_items_from_text parse text = .error "Empty YAML content." ∧
        yaml_keys_from_text parse text = yaml_keys_from_text parse2 text ∧
        yaml_items_from_text parse text = yaml_items_from_text parse2 text) ∧
    (∀ e, strippedEmpty text = false → parse text = .error e →
        yaml_keys_from_text parse text = .error ("Invalid YAML: " ++ e) ∧
        yaml_items_from_text parse text = .error ("Invalid YAML: " ++ e) ∧
        "Invalid YAML: " ++ e ≠ "Empty YAML content.") ∧
    (∀ d, strippedEmpty text = false → parse text = .ok d →
        yaml_keys_from_text parse text = .ok (yaml_keys d) ∧
        yaml_items_from_text parse text = .ok (yaml_items d)) := by
  refine ⟨?_, ?_, ?_⟩
  · intro h
    simp [yaml_keys_from_text, yaml_items_from_text, h]
  · intro e h hp
    simp [yaml_keys_from_text, yaml_items_from_text, h, hp]
    exact invalid_ne_empty_msg e
  · intro d h hp
    simp [yaml_keys_from_text, yaml_items_from_text, h, hp]

theorem text_error_handling_witness :
    strippedEmpty "  " = true ∧
    yaml_keys_from_text (fun _ => .ok Yaml.null) "  " =
      .error "Empty YAML content." ∧
    strippedEmpty "x" = false ∧
    yaml_keys_from_text (fun _ => .error "boom") "x" =
      .error ("Invalid YAML: " ++ "boom") ∧
    "Invalid YAML: " ++ "boom" ≠ "Empty YAML content." ∧
    yaml_keys_from_text (fun _ => .ok Yaml.null) "x" = .ok (yaml_keys Yaml.null) :=
  ⟨by decide,
   ((text_error_handling (fun _ => .ok Yaml.null) (fun _ => .ok Yaml.null) "  ").1
      (by decide)).1,
   by decide,
   ((text_error_handling (fun _ => .error "boom") (fun _ => .error "boom") "x").2.1
      "boom" (by decide) rfl).1,
   ((text_error_handling (fun _ => .error "boom") (fun _ => .error "boom") "x").2.1
      "boom" (by decide) rfl).2.2,
   ((text_error_handling (fun _ => .ok Yaml.null) (fun _ => .ok Yaml.null) "x").2.2
      Yaml.null (by decide) rfl).1⟩

/-- C7 (counterexample to the claim as stated): with maximum length 0
the output of fmt_value is longer than 0 — Python's s[: 0 - 1] keeps all
but the last character, so fmt_value of the integer 12 at maximum length
0 renders as two characters. -/
theorem fmt_value_length_cex :
    ¬((fmt_value (Yaml.int 12) 0).length ≤ 0) := by decide

/-- C7 (amended): for every value and every maximum length of at least
one, the output of fmt_value has length at most the maximum, and
whenever the untruncated rendering is longer than the maximum the output
ends in the ellipsis character.  (At maximum length 0 the length bound
fails, by the counterexample.) -/
theorem fmt_value_truncation (v : Yaml) (n : Nat) (h : 1 ≤ n) :
    (fmt_value v n).length ≤ n ∧
    (n < (fmt_raw v).length → (fmt_value v n).data.getLast? = some '…') := by
  have hval : fmt_value v n =
      if n < (fmt_raw v).length then
        (pyTakeTo (fmt_raw v) ((n : Int) - 1)).push '…'
      else fmt_raw v := rfl
  by_cases hlen : n < (fmt_raw v).length
  · rw [hval, if_pos hlen]
    have hpos : (0 : Int) ≤ (n : Int) - 1 := by omega
    have htake : pyTakeTo (fmt_raw v) ((n : Int) - 1) =
        ⟨(fmt_raw v).data.take ((n : Int) - 1).toNat⟩ := by
      rw [pyTakeTo, if_pos hpos]
    constructor
    · rw [htake, String.length_push]
      have hmk : (String.mk ((fmt_raw v).data.take ((n : Int) - 1).toNat)).length =
          ((fmt_raw v).data.take ((n : Int) - 1).toNat).length := rfl
      rw [hmk, List.length_take]
      have hnat : ((n : Int) - 1).toNat = n - 1 := by omega
      rw [hnat]
      omega
    · intro _
      rw [htake]
      exact List.getLast?_concat _
  · rw [hval, if_neg hlen]
    refine ⟨by omega, fun hc => absurd hc hlen⟩

theorem fmt_value_truncation_witness :
    1 ≤ 5 ∧
    ((fmt_value (Yaml.str "hello world") 5).length ≤ 5 ∧
      (5 < (fmt_raw (Yaml.str "hello world")).length →
        (fmt_value (Yaml.str "hello world") 5).data.getLast? = some '…')) :=
  ⟨by decide, fmt_value_truncation (Yaml.str "hello world") 5 (by decide)⟩

/-!  The key walk records exactly one path per mapping-key and per
sequence-index edge, whatever the running path: the list of recorded
paths has one entry per edge. -/
mutual
theorem walkKeys_length : ∀ (d : Yaml) (pre : String),
    (walkKeys d pre).length = countEdges d
  | .null, _ => rfl
  | .bool _, _ => rfl
  | .int _, _ => rfl
  | .float _, _ => rfl
  | .str _, _ => rfl
  | .seq xs, pre => by
      rw [walkKeys, countEdges, walkKeysSeq_length xs pre 0]
  | .map kvs, pre => by
      rw [walkKeys, countEdges, walkKeysMap_length kvs pre]

theorem walkKeysMap_length : ∀ (m : YamlMap) (pre : String),
    (walkKeysMap m pre).length = countEdgesMap m
  | .nil, _ => rfl
  | .cons k v tl, pre => by
      rw [walkKeysMap, countEdgesMap]
      simp only [List.length_append, List.length_cons]
      rw [walkKeys_length v, walkKeysMap_length tl pre]
      omega

theorem walkKeysSeq_length : ∀ (s : YamlSeq) (pre : String) (i : Nat),
    (walkKeysSeq s pre i).length = countEdgesSeq s
  | .nil, _, _ => rfl
  | .cons x tl, pre, i => by
      rw [walkKeysSeq, countEdgesSeq]
      simp only [List.length_append, List.length_cons]
      rw [walkKeys_length x, walkKeysSeq_length tl pre (i + 1)]
      omega
end

/-- C1 (counterexample to the claim as stated): the document
{"a.b": 1, "a": {"b": 2}} has three edges but its flattened path set has
only two elements — the top-level key "a.b" and the nested key "b" under
"a" both produce the path "a.b", so the set does not hold one path per
edge. -/
theorem flatten_edge_count_cex :
    (yaml_keys (Yaml.map (.cons "a.b" (.int 1)
        (.cons "a" (.map (.cons "b" (.int 2) .nil)) .nil)))).card ≠
      countEdges (Yaml.map (.cons "a.b" (.int 1)
        (.cons "a" (.map (.cons "b" (.int 2) .nil)) .nil))) := by decide

/-- C1 (amended): the walk records, by the stated child-path rule, one
path per mapping-key and per sequence-index edge at every depth — the
list of recorded paths has exactly one entry per edge, and the key set
is the set of those paths.  The set has exactly one element per edge
precisely when the recorded paths are pairwise distinct, which can fail
when a mapping key itself contains the separator text of another path
(as in the counterexample). -/
theorem flatten_edges (d : Yaml) :
    (walkKeys d "").length = countEdges d ∧
    yaml_keys d = (walkKeys d "").toFinset ∧
    ((yaml_keys d).card = countEdges d ↔ (walkKeys d "").Nodup) := by
  refine ⟨walkKeys_length d "", rfl, ?_⟩
  rw [yaml_keys, List.card_toFinset, ← walkKeys_length d ""]
  constructor
  · intro h
    exact List.dedup_eq_self.mp ((List.dedup_sublist _).eq_of_length h)
  · intro h
    rw [List.dedup_eq_self.mpr h]

/-!  The paths written by the value walk are the paths recorded by the
key walk, less any empty path, preceded by the running path itself when
it is non-empty. -/
mutual
theorem walkItems_fst : ∀ (d : Yaml) (pre : String),
    (walkItems d pre).map Prod.fst =
      (if pre = "" then [] else [pre]) ++
        (walkKeys d pre).filter (fun q => q ≠ "")
  | d, pre => by
      cases d with
      | map kvs =>
          rw [walkItems, List.map_append, walkItemsMap_fst kvs pre, walkKeys]
          by_cases hp : pre = "" <;> simp [hp]
      | seq xs =>
          rw [walkItems, List.map_append, walkItemsSeq_fst xs pre 0, walkKeys]
          by_cases hp : pre = "" <;> simp [hp]
      | null => by_cases hp : pre = "" <;> simp [hp, walkItems, walkKeys]
      | bool b => by_cases hp : pre = "" <;> simp [hp, walkItems, walkKeys]
      | int n => by_cases hp : pre = "" <;> simp [hp, walkItems, walkKeys]
      | float x => by_cases hp : pre = "" <;> simp [hp, walkItems, walkKeys]
      | str s => by_cases hp : pre = "" <;> simp [hp, walkItems, walkKeys]

theorem walkItemsMap_fst : ∀ (m : YamlMap) (pre : String),
    (walkItemsMap m pre).map Prod.fst =
      (walkKeysMap m pre).filter (fun q => q ≠ "")
  | .nil, _ => rfl
  | .cons k v tl, pre => by
      rw [walkItemsMap, walkKeysMap, List.map_append,
        walkItems_fst v _, walkItemsMap_fst tl pre]
      by_cases hk : (if pre = "" then k else pre ++ "." ++ k) = "" <;>
        simp [hk, List.filter_cons]

theorem walkItemsSeq_fst : ∀ (s : YamlSeq) (pre : String) (i : Nat),
    (walkItemsSeq s pre i).map Prod.fst =
      (walkKeysSeq s pre i).filter (fun q => q ≠ "")
  | .nil, _, _ => rfl
  | .cons x tl, pre, i => by
      rw [walkItemsSeq, walkKeysSeq, List.map_append,
        walkItems_fst x _, walkItemsSeq_fst tl pre (i + 1)]
      by_cases hk : (if pre = "" then "[" ++ toString i ++ "]"
          else pre ++ "[" ++ toString i ++ "]") = "" <;>
        simp [hk, List.filter_cons]
end

/-- C9 (counterexample to the claim as stated): for the mapping with the
single empty-string key, the flattened key set holds the empty path but
the path → value map is empty, so the two flatteners disagree on which
paths exist. -/
theorem items_keys_cex :
    is_container (Yaml.map (.cons "" (.int 1) .nil)) = true ∧
    ((yaml_items (Yaml.map (.cons "" (.int 1) .nil))).map Prod.fst).toFinset ≠
      yaml_keys (Yaml.map (.cons "" (.int 1) .nil)) := by decide

/-- C9 (amended): for a container root, the key set of the path → value
map is the flattened key set with the empty path removed; the two
flatteners agree on which paths exist whenever the empty path was not
recorded (it arises only from an empty mapping key at an empty running
path). -/
theorem items_keys_agree (d : Yaml) (h : is_container d = true) :
    ((yaml_items d).map Prod.fst).toFinset = (yaml_keys d).erase "" ∧
    ("" ∉ yaml_keys d →
      ((yaml_items d).map Prod.fst).toFinset = yaml_keys d) := by
  have h1 : ((yaml_items d).map Prod.fst).toFinset = (yaml_keys d).erase "" := by
    rw [yaml_items, if_pos h, walkItems_fst d "", if_pos rfl, List.nil_append,
      List.toFinset_filter, yaml_keys]
    ext x
    simp [Finset.mem_erase, and_comm]
  refine ⟨h1, fun hne => ?_⟩
  rw [h1]
  exact Finset.erase_eq_of_not_mem hne

theorem items_keys_agree_witness :
    is_container (Yaml.map (.cons "a" (.int 1) .nil)) = true ∧
    ((yaml_items (Yaml.map (.cons "a" (.int 1) .nil))).map Prod.fst).toFinset =
      (yaml_keys (Yaml.map (.cons "a" (.int 1) .nil))).erase "" :=
  ⟨by decide, (items_keys_agree (Yaml.map (.cons "a" (.int 1) .nil)) (by decide)).1⟩

/-- A path that lookupLast resolves is exactly a path among the written
keys. -/
theorem lookupLast_isSome (l : List (String × Yaml)) (q : String) :
    (lookupLast l q).isSome = true ↔ q ∈ l.map Prod.fst := by
  induction l with
  | nil => simp [lookupLast]
  | cons kv tl ih =>
      obtain ⟨k, v⟩ := kv
      rw [lookupLast]
      cases htl : lookupLast tl q with
      | some w =>
          simp only [Option.isSome_some, List.map_cons, List.mem_cons]
          rw [htl] at ih
          simp at ih
          simp [ih]
      | none =>
          rw [htl] at ih
          simp at ih
          by_cases hk : k = q
          · simp [hk, ih]
          · simp [hk, ih]
            exact fun h => hk h.symm

/-- A non-container root records no keys at all. -/
theorem keys_empty_of_not_container (d : Yaml) (h : is_container d = false) :
    yaml_keys d = ∅ := by
  cases d <;> simp_all [is_container, yaml_keys, walkKeys]

/-- Any non-empty recorded path of a document resolves in its path →
value map. -/
theorem present_of_key (d : Yaml) (k : String)
    (hk : k ∈ yaml_keys d) (hne : k ≠ "") :
    (itemsDict d k).isSome = true := by
  rw [itemsDict, lookupLast_isSome]
  by_cases hc : is_container d
  · rw [yaml_items, if_pos hc, walkItems_fst d "", if_pos rfl, List.nil_append]
    rw [List.mem_filter]
    exact ⟨List.mem_toFinset.mp hk, by simp [hne]⟩
  · rw [keys_empty_of_not_container d (by simp_all)] at hk
    exact absurd hk (Finset.not_mem_empty k)

/-- C10 (counterexample to the claim as stated): with the mapping
{"": 1} on both sides, the empty path is common to both key sets yet
absent from both path → value maps, so the "<missing>" default of the
value-comparison loop is used for it. -/
theorem common_paths_present_cex :
    "" ∈ (diffPaths (yaml_keys (Yaml.map (.cons "" (.int 1) .nil)))
        (yaml_keys (Yaml.map (.cons "" (.int 1) .nil)))).1 ∧
    itemsDict (Yaml.map (.cons "" (.int 1) .nil)) "" = none := by decide

/-- C10 (amended): every non-empty path common to both key sets resolves
in both path → value maps, so the "<missing>" default of the
value-comparison loop can only ever be used at the empty path. -/
theorem common_paths_present (dL dR : Yaml) (k : String)
    (hk : k ∈ (diffPaths (yaml_keys dL) (yaml_keys dR)).1) (hne : k ≠ "") :
    (itemsDict dL k).isSome = true ∧ (itemsDict dR k).isSome = true := by
  rw [diffPaths] at hk
  rw [Finset.mem_inter] at hk
  exact ⟨present_of_key dL k hk.1 hne, present_of_key dR k hk.2 hne⟩

theorem common_paths_present_witness :
    "a" ∈ (diffPaths (yaml_keys (Yaml.map (.cons "a" (.int 1) .nil)))
        (yaml_keys (Yaml.map (.cons "a" (.int 2) .nil)))).1 ∧
    ("a" : String) ≠ "" ∧
    (itemsDict (Yaml.map (.cons "a" (.int 1) .nil)) "a").isSome = true ∧
    (itemsDict (Yaml.map (.cons "a" (.int 2) .nil)) "a").isSome = true :=
  ⟨by decide, by decide,
   (common_paths_present (Yaml.map (.cons "a" (.int 1) .nil))
     (Yaml.map (.cons "a" (.int 2) .nil)) "a" (by decide) (by decide)).1,
   (common_paths_present (Yaml.map (.cons "a" (.int 1) .nil))
     (Yaml.map (.cons "a" (.int 2) .nil)) "a" (by decide) (by decide)).2⟩

theorem commonRowLeft_path (dL dR : Yaml) (k : String) :
    (commonRowLeft dL dR k).path = k := by
  cases hv : valueColor ((itemsDict dL k).getD (.str "<missing>"))
      ((itemsDict dR k).getD (.str "<missing>")) <;>
    simp [commonRowLeft.eq_def, hv]

theorem commonRowLeft_color (dL dR : Yaml) (k : String) :
    (commonRowLeft dL dR k).color ≠ RowColor.red := by
  cases hv : valueColor ((itemsDict dL k).getD (.str "<missing>"))
      ((itemsDict dR k).getD (.str "<missing>")) <;>
    simp [commonRowLeft.eq_def, hv]

theorem commonRowRight_path (dL dR : Yaml) (k : String) :
    (commonRowRight dL dR k).path = k := by
  cases hv : valueColor ((itemsDict dL k).getD (.str "<missing>"))
      ((itemsDict dR k).getD (.str "<missing>")) <;>
    simp [commonRowRight.eq_def, hv]

theorem commonRowRight_color (dL dR : Yaml) (k : String) :
    (commonRowRight dL dR k).color ≠ RowColor.red := by
  cases hv : valueColor ((itemsDict dL k).getD (.str "<missing>"))
      ((itemsDict dR k).getD (.str "<missing>")) <;>
    simp [commonRowRight.eq_def, hv]

/-- After any filtering, the path column of rows built by mapping a
path-preserving builder over a sorted key list stays sorted. -/
theorem sorted_rows_sorted (s : Finset String) (f : String → RenderedRow)
    (hf : ∀ k, (f k).path = k) (p : RenderedRow → Bool) :
    List.Sorted (fun a b : String => a ≤ b)
      ((((sortedKeys s).map f).filter p).map RenderedRow.path) := by
  rw [List.filter_map, List.map_map]
  have h2 : ((sortedKeys s).filter (p ∘ f)).map (RenderedRow.path ∘ f) =
      ((sortedKeys s).filter (p ∘ f)).map id :=
    List.map_congr_left (fun a _ => hf a)
  rw [h2, List.map_id]
  exact (Finset.sort_sorted _ s).filter _

/-- A side's full list is common rows (never red) over the sorted common
keys followed by red rows over the sorted only-keys; restricted to any
one colour, the path column is sorted. -/
theorem side_rows_sorted (A B : Finset String) (f g : String → RenderedRow)
    (hf : ∀ k, (f k).path = k) (hg : ∀ k, (g k).path = k)
    (hfc : ∀ k, (f k).color ≠ RowColor.red)
    (hgc : ∀ k, (g k).color = RowColor.red) (c : RowColor) :
    List.Sorted (fun a b : String => a ≤ b)
      ((((sortedKeys A).map f ++ (sortedKeys B).map g).filter
          (fun r => r.color = c)).map RenderedRow.path) := by
  rw [List.filter_append, List.map_append]
  by_cases hc : c = RowColor.red
  · have h1 : ((sortedKeys A).map f).filter (fun r => r.color = c) = [] := by
      rw [List.filter_eq_nil_iff]
      intro r hr
      rw [List.mem_map] at hr
      obtain ⟨k, _, rfl⟩ := hr
      simp [hc, hfc k]
    rw [h1, List.map_nil, List.nil_append]
    exact sorted_rows_sorted B g hg _
  · have h1 : ((sortedKeys B).map g).filter (fun r => r.color = c) = [] := by
      rw [List.filter_eq_nil_iff]
      intro r hr
      rw [List.mem_map] at hr
      obtain ⟨k, _, rfl⟩ := hr
      simp [hgc k]
      exact fun h => hc h.symm
    rw [h1, List.map_nil, List.append_nil]
    exact sorted_rows_sorted A f hf _

/-- C8: within each colour class, each results list presents its paths
in ascending lexicographic order of the raw path string (code-point
order, not structural depth or numeric index value) — in particular the
bracketed index "[10]" orders before "[2]". -/
theorem rows_sorted (dL dR : Yaml) (cv : Bool) (c : RowColor) :
    List.Sorted (fun a b : String => a ≤ b)
      (((leftRows dL dR cv).filter (fun r => r.color = c)).map RenderedRow.path) ∧
    List.Sorted (fun a b : String => a ≤ b)
      (((rightRows dL dR cv).filter (fun r => r.color = c)).map RenderedRow.path) ∧
    ("[10]" : String) < "[2]" := by
  refine ⟨?_, ?_, ?_⟩
  · cases cv
    · exact side_rows_sorted (yaml_keys dL ∩ yaml_keys dR)
        (yaml_keys dL \ yaml_keys dR) (fun k => ⟨k, k, .green⟩)
        (fun k => ⟨k, k ++ "  (missing in B)", .red⟩)
        (fun k => rfl) (fun k => rfl) (fun k => by simp) (fun k => rfl) c
    · exact side_rows_sorted (yaml_keys dL ∩ yaml_keys dR)
        (yaml_keys dL \ yaml_keys dR) (commonRowLeft dL dR)
        (fun k => ⟨k, k ++ "  (missing in B)", .red⟩)
        (commonRowLeft_path dL dR) (fun k => rfl)
        (commonRowLeft_color dL dR) (fun k => rfl) c
  · cases cv
    · exact side_rows_sorted (yaml_keys dL ∩ yaml_keys dR)
        (yaml_keys dR \ yaml_keys dL) (fun k => ⟨k, k, .green⟩)
        (fun k => ⟨k, k ++ "  (missing in A)", .red⟩)
        (fun k => rfl) (fun k => rfl) (fun k => by simp) (fun k => rfl) c
    · exact side_rows_sorted (yaml_keys dL ∩ yaml_keys dR)
        (yaml_keys dR \ yaml_keys dL) (commonRowRight dL dR)
        (fun k => ⟨k, k ++ "  (missing in A)", .red⟩)
        (commonRowRight_path dL dR) (fun k => rfl)
        (commonRowRight_color dL dR) (fun k => rfl) c
  · rw [String.lt_iff_toList_lt]
    decide

end ConfigComparator
